import Mathlib

set_option maxRecDepth 100000

/-!
Shallow embedding of the ARM64 assembler in `asm.py` (class `ARM64Assembler`):
operand parsing, the per-family instruction encoders, the two-pass driver,
the relocation resolver and the Mach-O executable emitter.  Python strings are
modelled with executable helpers over `List Char` that reproduce the semantics
of the Python string methods used by the source (`strip`, `split`, `splitOn`,
`replace`, `lower`, containment tests); Python unbounded integers are `Nat`
(addresses, machine words) and `Int` (parsed immediates, signed deltas), with
Python's floor division `//` and `>>` on possibly-negative values rendered as
`Int.fdiv` and `& (2^k - 1)` rendered as `Int.emod (2^k)`.  Fallible Python
code (raised exceptions) is modelled with `Except String`.
-/

/-- Python `str.isspace` for the whitespace characters that matter here. -/
def pyIsSpace (c : Char) : Bool :=
  c == ' ' || c == '\t' || c == '\n' || c == '\r'

/-- Python `str.strip()` on a character list. -/
def pyStripWsList (cs : List Char) : List Char :=
  ((cs.dropWhile pyIsSpace).reverse.dropWhile pyIsSpace).reverse

/-- Python `s.strip()`. -/
def pyTrim (s : String) : String :=
  String.mk (pyStripWsList s.data)

/-- Python `s.strip(chars)`: remove the characters of `chars` from both ends. -/
def pyStripChars (chars : List Char) (s : String) : String :=
  let p := fun c => chars.contains c
  String.mk ((s.data.dropWhile p).reverse.dropWhile p).reverse

/-- Python `s.startswith(p)`. -/
def pyStartsWith (s p : String) : Bool :=
  p.data.isPrefixOf s.data

/-- Python `s.endswith(p)`. -/
def pyEndsWith (s p : String) : Bool :=
  p.data.isSuffixOf s.data

/-- Python `c in s` for a single character. -/
def pyHasChar (s : String) (c : Char) : Bool :=
  s.data.contains c

/-- Core of Python `s.split(sep)`: fuel-driven scan so it reduces in the
kernel; the fuel is always at least the length of the remaining input. -/
def pySplitOnCore (sep : List Char) : Nat → List Char → List Char → List (List Char)
  | _, [], acc => [acc.reverse]
  | 0, s, acc => [acc.reverse ++ s]
  | Nat.succ f, c :: rest, acc =>
    if sep.isPrefixOf (c :: rest) then
      acc.reverse :: pySplitOnCore sep f ((c :: rest).drop sep.length) []
    else
      pySplitOnCore sep f rest (c :: acc)

/-- Python `s.split(sep)` for a non-empty separator string. -/
def pySplitOn (s sep : String) : List String :=
  if sep.data.isEmpty then [s]
  else (pySplitOnCore sep.data (s.data.length + 1) s.data []).map String.mk

/-- Python `sub in s` (substring containment). -/
def pyHasSub (s sub : String) : Bool :=
  (pySplitOn s sub).length != 1

/-- Python `s.split(sep, 1)[0]`. -/
def pySplitFirst (s sep : String) : String :=
  (pySplitOn s sep).headD s

/-- Python `s.split(sep, 1)[1]` (the remainder after the first separator). -/
def pySplitRest (s sep : String) : String :=
  String.intercalate sep ((pySplitOn s sep).drop 1)

/-- Python `s.replace(old, new)` (equals `new.join(s.split(old))`). -/
def pyReplace (s old new : String) : String :=
  String.intercalate new (pySplitOn s old)

/-- Core of Python's whitespace `s.split()`: runs of whitespace separate
fields and produce no empty fields. -/
def pySplitWsCore : List Char → List Char → List (List Char)
  | [], acc => if acc.isEmpty then [] else [acc.reverse]
  | c :: rest, acc =>
    if pyIsSpace c then
      if acc.isEmpty then pySplitWsCore rest []
      else acc.reverse :: pySplitWsCore rest []
    else pySplitWsCore rest (c :: acc)

/-- Python `s.split()` (split on whitespace, dropping empty fields). -/
def pySplitWs (s : String) : List String :=
  (pySplitWsCore s.data []).map String.mk

/-- Python `str.lower` on one character. -/
def pyCharLower (c : Char) : Char :=
  if 'A' ≤ c && c ≤ 'Z' then Char.ofNat (c.toNat + 32) else c

/-- Python `s.lower()`. -/
def pyToLower (s : String) : String :=
  String.mk (s.data.map pyCharLower)

/-- Value of a digit character in base `b` (hex accepts both cases),
`none` when the character is not a digit of that base. -/
def digitVal (b : Nat) (c : Char) : Option Nat :=
  let v :=
    if '0' ≤ c && c ≤ '9' then some (c.toNat - 48)
    else if 'a' ≤ c && c ≤ 'f' then some (c.toNat - 87)
    else if 'A' ≤ c && c ≤ 'F' then some (c.toNat - 55)
    else none
  match v with
  | some d => if d < b then some d else none
  | none => none

/-- Digits-only part of Python `int(s, b)`; `none` on empty input or a
non-digit character. -/
def pyParseNat (b : Nat) (cs : List Char) : Option Nat :=
  match cs with
  | [] => none
  | _ => cs.foldl (fun acc c =>
      match acc, digitVal b c with
      | some a, some d => some (a * b + d)
      | _, _ => none) (some 0)

/-- Python `int(s, b)` for bases 2, 10 and 16: surrounding whitespace is
ignored, an optional sign is accepted, and for bases 2/16 the matching
`0b`/`0x` prefix (either case) is accepted. -/
def pyIntParse (b : Nat) (cs : List Char) : Option Int :=
  let cs := pyStripWsList cs
  let signed : Bool × List Char :=
    match cs with
    | '-' :: r => (true, r)
    | '+' :: r => (false, r)
    | r => (false, r)
  let neg := signed.1
  let cs := signed.2
  let cs :=
    if b == 16 && (['0', 'x'].isPrefixOf cs || ['0', 'X'].isPrefixOf cs) then cs.drop 2
    else if b == 2 && (['0', 'b'].isPrefixOf cs || ['0', 'B'].isPrefixOf cs) then cs.drop 2
    else cs
  (pyParseNat b cs).map (fun n => if neg then -(n : Int) else (n : Int))

/-- The label table: a Python `dict` keyed by strings, modelled as an
association list; `dictSet` updates in place (keeping insertion order) or
appends, exactly like a `dict` assignment. -/
def dictSet (d : List (String × Nat)) (k : String) (v : Nat) : List (String × Nat) :=
  match d with
  | [] => [(k, v)]
  | (k', v') :: t => if k' == k then (k, v) :: t else (k', v') :: dictSet t k v

/-- Python `d[k]` / `d.get(k)` on the association list. -/
def dictLookup (d : List (String × Nat)) (k : String) : Option Nat :=
  match d with
  | [] => none
  | (k', v) :: t => if k' == k then some v else dictLookup t k

/-- Python `k in d`. -/
def dictContains (d : List (String × Nat)) (k : String) : Bool :=
  (dictLookup d k).isSome

/-- Python list indexing `xs[i]`, raising `IndexError` past the end. -/
def getOp (ops : List String) (i : Nat) : Except String String :=
  match ops[i]? with
  | some s => .ok s
  | none => .error "list index out of range"

/-- Python `xs[-1]`, raising `IndexError` on an empty list. -/
def getLastOp (ops : List String) : Except String String :=
  match ops.getLast? with
  | some s => .ok s
  | none => .error "list index out of range"

/-- `self.conditions`: condition mnemonic → 4-bit condition code
(`Condition` IntEnum values), with the `hs`/`lo` aliases. -/
def conditionsLookup (s : String) : Option Nat :=
  match s with
  | "eq" => some 0b0000
  | "ne" => some 0b0001
  | "cs" => some 0b0010
  | "hs" => some 0b0010
  | "cc" => some 0b0011
  | "lo" => some 0b0011
  | "mi" => some 0b0100
  | "pl" => some 0b0101
  | "vs" => some 0b0110
  | "vc" => some 0b0111
  | "hi" => some 0b1000
  | "ls" => some 0b1001
  | "ge" => some 0b1010
  | "lt" => some 0b1011
  | "gt" => some 0b1100
  | "le" => some 0b1101
  | "al" => some 0b1110
  | _ => none

/-- `_init_registers`: x0–x30/w0–w30, v/s/d/q 0–31, and the special aliases
`xzr`, `wzr`, `sp`, `lr`, `x30`, `fp`, `x29`, built with the same update
order as the Python loops. -/
def registers : List (String × Nat) :=
  let r1 := (List.range 31).foldl
    (fun m i => dictSet (dictSet m ("x" ++ toString i) i) ("w" ++ toString i) i) []
  let r2 := (List.range 32).foldl
    (fun m i =>
      dictSet (dictSet (dictSet (dictSet m ("v" ++ toString i) i)
        ("s" ++ toString i) i) ("d" ++ toString i) i) ("q" ++ toString i) i) r1
  dictSet (dictSet (dictSet (dictSet (dictSet (dictSet (dictSet r2
    "xzr" 31) "wzr" 31) "sp" 31) "lr" 30) "x30" 30) "fp" 29) "x29" 29

/-- `parse_register`: lower-case and strip, look the name up in the register
table, and report whether it is a 64-bit register. -/
def parse_register (reg : String) : Except String (Nat × Bool) :=
  let reg := pyTrim (pyToLower reg)
  match dictLookup registers reg with
  | none => .error ("Invalid register: " ++ reg)
  | some n =>
    let is64 := pyStartsWith reg "x" ||
      reg == "sp" || reg == "lr" || reg == "fp" || reg == "xzr"
    .ok (n, is64)

/-- `parse_imm`: strip, remove leading `#`, then parse with `0x`/`0b`
prefixes or as decimal. -/
def parse_imm (imm : String) : Except String Int :=
  let cs := (pyStripWsList imm.data).dropWhile (· == '#')
  if ['0', 'x'].isPrefixOf cs then
    match pyIntParse 16 cs with
    | some v => .ok v
    | none => .error ("invalid literal for int() with base 16: \x27" ++ String.mk cs ++ "\x27")
  else if ['0', 'b'].isPrefixOf cs then
    match pyIntParse 2 cs with
    | some v => .ok v
    | none => .error ("invalid literal for int() with base 2: \x27" ++ String.mk cs ++ "\x27")
  else
    match pyIntParse 10 cs with
    | some v => .ok v
    | none => .error ("invalid literal for int() with base 10: \x27" ++ String.mk cs ++ "\x27")

/-- A relocation entry `(offset, label, type)` as appended during pass 2. -/
abbrev Reloc := Nat × String × String

/-- `_encode_add_sub_imm`: ADD/SUB/ADDS/SUBS with a 12-bit immediate and an
optional `LSL #shift`. -/
def encode_add_sub_imm (mnem : String) (ops : List String) : Except String Nat := do
  let is_sub := pyHasSub mnem "sub"
  let set_flags := pyEndsWith mnem "s"
  let (rd, sf) ← parse_register (← getOp ops 0)
  let (rn, _) ← parse_register (← getOp ops 1)
  let imm ← parse_imm (← getOp ops 2)
  if imm < 0 ∨ 4096 ≤ imm then
    throw ("Immediate out of range: " ++ toString imm)
  else do
    let shift : Int ←
      if ops.length > 3 && pyHasSub (pyToLower (ops.getD 3 "")) "lsl" then do
        pure ((← parse_imm (← getOp ops 4)).fdiv 12)
      else pure 0
    pure ((sf.toNat <<< 31) ||| (is_sub.toNat <<< 30) ||| (set_flags.toNat <<< 29) |||
      (0b100010 <<< 23) ||| (shift.toNat <<< 22) ||| (imm.toNat <<< 10) ||| (rn <<< 5) ||| rd)

/-- `_encode_logical_imm`: AND/ORR/EOR/ANDS immediate with the source's
simplified (masking, not spec-compliant) immediate field. -/
def encode_logical_imm (mnem : String) (ops : List String) : Except String Nat := do
  let opc : Nat :=
    if mnem == "and" then 0b00 else if mnem == "orr" then 0b01
    else if mnem == "eor" then 0b10 else if mnem == "ands" then 0b11 else 0b01
  let (rd, sf) ← parse_register (← getOp ops 0)
  let (rn, _) ← parse_register (← getOp ops 1)
  let imm ← parse_imm (← getOp ops 2)
  let n := sf.toNat
  let immr : Nat := 0
  let imms : Nat := (imm.emod 64).toNat
  pure ((sf.toNat <<< 31) ||| (opc <<< 29) ||| (0b100100 <<< 23) ||| (n <<< 22) |||
    (immr <<< 16) ||| (imms <<< 10) ||| (rn <<< 5) ||| rd)

/-- `_encode_movz_movn_movk`: MOVZ/MOVN/MOVK with a 16-bit immediate and an
optional `LSL #shift` selecting the `hw` field. -/
def encode_movz_movn_movk (mnem : String) (ops : List String) : Except String Nat := do
  let opc : Nat ←
    if mnem == "movz" then pure 0b10 else if mnem == "movn" then pure 0b00
    else if mnem == "movk" then pure 0b11 else throw ("KeyError: " ++ mnem)
  let (rd, sf) ← parse_register (← getOp ops 0)
  let imm ← parse_imm (← getOp ops 1)
  let hw : Int ←
    if ops.length > 2 && pyHasSub (pyToLower (ops.getD 2 "")) "lsl" then do
      pure ((← parse_imm (← getOp ops 3)).fdiv 16)
    else pure 0
  if imm < 0 ∨ 65536 ≤ imm then
    throw ("Immediate out of range: " ++ toString imm)
  else
    pure ((sf.toNat <<< 31) ||| (opc <<< 29) ||| (0b100101 <<< 23) ||| (hw.toNat <<< 21) |||
      (imm.toNat <<< 5) ||| rd)

/-- `_encode_add_sub_reg`: ADD/SUB/ADDS/SUBS shifted-register form. -/
def encode_add_sub_reg (mnem : String) (ops : List String) : Except String Nat := do
  let is_sub := pyHasSub mnem "sub"
  let set_flags := pyEndsWith mnem "s"
  let (rd, sf) ← parse_register (← getOp ops 0)
  let (rn, _) ← parse_register (← getOp ops 1)
  let (rm, _) ← parse_register (← getOp ops 2)
  let shift_type : Nat := 0
  let shift_amount : Nat := 0
  pure ((sf.toNat <<< 31) ||| (is_sub.toNat <<< 30) ||| (set_flags.toNat <<< 29) |||
    (0b01011 <<< 24) ||| (shift_type <<< 22) ||| (rm <<< 16) ||| (shift_amount <<< 10) |||
    (rn <<< 5) ||| rd)

/-- `_encode_logical_reg`: AND/ORR/EOR/ANDS/BIC/ORN/EON/BICS register form. -/
def encode_logical_reg (mnem : String) (ops : List String) : Except String Nat := do
  let opc : Nat :=
    if mnem == "and" || mnem == "bic" then 0b00
    else if mnem == "orr" || mnem == "orn" then 0b01
    else if mnem == "eor" || mnem == "eon" then 0b10
    else if mnem == "ands" || mnem == "bics" then 0b11 else 0b01
  let n : Nat := if mnem == "bic" || mnem == "orn" || mnem == "eon" || mnem == "bics" then 1 else 0
  let (rd, sf) ← parse_register (← getOp ops 0)
  let (rn, _) ← parse_register (← getOp ops 1)
  let (rm, _) ← parse_register (← getOp ops 2)
  pure ((sf.toNat <<< 31) ||| (opc <<< 29) ||| (0b01010 <<< 24) ||| (n <<< 21) |||
    (rm <<< 16) ||| (rn <<< 5) ||| rd)

/-- `_encode_mul_div`: MUL/MADD/MSUB/SDIV/UDIV. -/
def encode_mul_div (mnem : String) (ops : List String) : Except String Nat := do
  let (rd, sf) ← parse_register (← getOp ops 0)
  let (rn, _) ← parse_register (← getOp ops 1)
  let (rm, _) ← parse_register (← getOp ops 2)
  if mnem == "mul" then
    let ra : Nat := 31
    let o0 : Nat := 0
    pure ((sf.toNat <<< 31) ||| (0b11011 <<< 24) ||| (rm <<< 16) ||| (o0 <<< 15) |||
      (ra <<< 10) ||| (rn <<< 5) ||| rd)
  else if mnem == "madd" || mnem == "msub" then do
    let (ra, _) ← parse_register (← getOp ops 3)
    let o0 : Nat := if mnem == "msub" then 1 else 0
    pure ((sf.toNat <<< 31) ||| (0b11011 <<< 24) ||| (rm <<< 16) ||| (o0 <<< 15) |||
      (ra <<< 10) ||| (rn <<< 5) ||| rd)
  else if mnem == "sdiv" || mnem == "udiv" then
    let o0 : Nat := if mnem == "sdiv" then 1 else 0
    pure ((sf.toNat <<< 31) ||| (0b11010110 <<< 21) ||| (rm <<< 16) |||
      (o0 <<< 10) ||| (rn <<< 5) ||| rd)
  else
    throw ("UnboundLocalError: " ++ mnem)

/-- `_encode_shift`: LSL/LSR/ASR/ROR by immediate or register. -/
def encode_shift (mnem : String) (ops : List String) : Except String Nat := do
  let shift : Nat :=
    if mnem == "lsl" then 0b00 else if mnem == "lsr" then 0b01
    else if mnem == "asr" then 0b10 else 0b11
  let (rd, sf) ← parse_register (← getOp ops 0)
  let (rn, _) ← parse_register (← getOp ops 1)
  let op2 ← getOp ops 2
  if pyStartsWith (pyTrim op2) "#" then do
    let imm ← parse_imm op2
    pure ((sf.toNat <<< 31) ||| (0b10011010110 <<< 21) ||| (imm.toNat <<< 16) |||
      (imm.toNat <<< 10) ||| (rn <<< 5) ||| rd)
  else do
    let (rm, _) ← parse_register op2
    pure ((sf.toNat <<< 31) ||| (0b11010110 <<< 21) ||| (rm <<< 16) |||
      (0b0010 <<< 12) ||| (shift <<< 10) ||| (rn <<< 5) ||| rd)

/-- `_encode_ldr_str`: LDR/STR for the `[Xn, #imm]`, `[Xn, Xm]` and `[Xn]`
shapes (as the source actually receives them after comma-splitting). -/
def encode_ldr_str (mnem : String) (ops : List String) : Except String Nat := do
  let is_load := pyHasSub mnem "ldr"
  let (rt, sf) ← parse_register (← getOp ops 0)
  let mem := pyTrim (← getOp ops 1)
  if pyHasChar mem '[' && pyHasChar mem '#' then do
    let mem := pyStripChars ['[', ']'] mem
    let parts := pySplitOn mem ","
    let (rn, _) ← parse_register (← getOp parts 0)
    let imm ← parse_imm (← getOp parts 1)
    let size : Nat := if sf then 3 else 2
    let scale : Nat := 2 + (size - 2)
    let imm12 : Nat := if 0 ≤ imm then imm.toNat >>> scale else 0
    pure ((size <<< 30) ||| (0b111 <<< 27) ||| (0b01 <<< 24) ||| (is_load.toNat <<< 22) |||
      (imm12 <<< 10) ||| (rn <<< 5) ||| rt)
  else if pyHasChar mem '[' && pyHasChar mem ',' then do
    let mem := pyStripChars ['[', ']'] mem
    let parts := pySplitOn mem ","
    let (rn, _) ← parse_register (← getOp parts 0)
    let (rm, _) ← parse_register (← getOp parts 1)
    let size : Nat := if sf then 3 else 2
    let option : Nat := 0b011
    let s : Nat := 1
    pure ((size <<< 30) ||| (0b111 <<< 27) ||| (is_load.toNat <<< 22) ||| (0b1 <<< 21) |||
      (rm <<< 16) ||| (option <<< 13) ||| (s <<< 12) ||| (0b10 <<< 10) ||| (rn <<< 5) ||| rt)
  else do
    let mem := pyStripChars ['[', ']'] mem
    let (rn, _) ← parse_register mem
    let size : Nat := if sf then 3 else 2
    pure ((size <<< 30) ||| (0b111 <<< 27) ||| (0b01 <<< 24) ||| (is_load.toNat <<< 22) |||
      (rn <<< 5) ||| rt)

/-- `_encode_ldp_stp`: LDP/STP pair load/store with a 7-bit scaled offset. -/
def encode_ldp_stp (mnem : String) (ops : List String) : Except String Nat := do
  let is_load := pyHasSub mnem "ldp"
  let (rt1, sf) ← parse_register (← getOp ops 0)
  let (rt2, _) ← parse_register (← getOp ops 1)
  let mem := pyTrim (← getOp ops 2)
  let rnimm7 : Nat × Nat ←
    if pyHasChar mem '[' && pyHasChar mem '#' then do
      let mem := pyStripChars ['[', ']'] mem
      let parts := pySplitOn mem ","
      let (rn, _) ← parse_register (← getOp parts 0)
      let imm ← parse_imm (← getOp parts 1)
      pure (rn, ((imm.fdiv 8).emod 128).toNat)
    else do
      let mem := pyStripChars ['[', ']'] mem
      let (rn, _) ← parse_register mem
      pure (rn, 0)
  let rn := rnimm7.1
  let imm7 := rnimm7.2
  let opc : Nat := if sf then 0b10 else 0b00
  pure ((opc <<< 30) ||| (0b101 <<< 27) ||| (0b010 <<< 23) ||| (is_load.toNat <<< 22) |||
    (imm7 <<< 15) ||| (rt2 <<< 10) ||| (rn <<< 5) ||| rt1)

/-- `_encode_adr_adrp`: PC-relative address; resolves inline when the label is
already in the table, otherwise appends a relocation and encodes zeros. -/
def encode_adr_adrp (mnem : String) (ops : List String)
    (labels : List (String × Nat)) (relocs : List Reloc) (address : Nat) :
    Except String (Nat × List Reloc) := do
  let (rd, _) ← parse_register (← getOp ops 0)
  let label := pyTrim (← getOp ops 1)
  let (immlo, immhi, relocs) : Nat × Nat × List Reloc :=
    match dictLookup labels label with
    | some target =>
      let offset : Int := (target : Int) - (address : Int)
      let offset : Int := if mnem == "adrp" then (offset.fdiv 4096).emod 2097152 else offset
      ((offset.emod 4).toNat, ((offset.fdiv 4).emod 524288).toNat, relocs)
    | none => (0, 0, relocs ++ [(address, label, mnem)])
  let op : Nat := if mnem == "adrp" then 1 else 0
  pure ((op <<< 31) ||| (immlo <<< 29) ||| (0b10000 <<< 24) ||| (immhi <<< 5) ||| rd, relocs)

/-- `_encode_b_bl`: unconditional branch; inline resolution when the label is
known, otherwise a relocation of kind `b` and a zero offset field. -/
def encode_b_bl (mnem : String) (ops : List String)
    (labels : List (String × Nat)) (relocs : List Reloc) (address : Nat) :
    Except String (Nat × List Reloc) := do
  let is_link := mnem == "bl"
  let label := pyTrim (← getOp ops 0)
  let (offset, relocs) : Nat × List Reloc :=
    match dictLookup labels label with
    | some target => (((((target : Int) - (address : Int)).fdiv 4).emod 67108864).toNat, relocs)
    | none => (0, relocs ++ [(address, label, "b")])
  pure ((is_link.toNat <<< 31) ||| (0b00101 <<< 26) ||| offset, relocs)

/-- `_encode_b_cond`: conditional branch, condition from the mnemonic's
`b.xx` suffix, relocation kind `bcond` when the label is unknown. -/
def encode_b_cond (mnem : String) (ops : List String)
    (labels : List (String × Nat)) (relocs : List Reloc) (address : Nat) :
    Except String (Nat × List Reloc) := do
  let cond_str : String ←
    if pyHasChar mnem '.' then pure ((pySplitOn mnem ".").getD 1 "")
    else do pure (pyStripChars ['.'] (← getOp ops 0))
  let cond := (conditionsLookup (pyToLower cond_str)).getD 0b1110
  let label := pyTrim (← getLastOp ops)
  let (offset, relocs) : Nat × List Reloc :=
    match dictLookup labels label with
    | some target => (((((target : Int) - (address : Int)).fdiv 4).emod 524288).toNat, relocs)
    | none => (0, relocs ++ [(address, label, "bcond")])
  pure ((0b01010100 <<< 24) ||| (offset <<< 5) ||| cond, relocs)

/-- `_encode_br_blr_ret`: register-indirect branches; RET defaults to `lr`. -/
def encode_br_blr_ret (mnem : String) (ops : List String) : Except String Nat := do
  if mnem == "ret" then do
    let rn : Nat ←
      if ops.isEmpty || (pyTrim (ops.getD 0 "")).isEmpty then pure 30
      else do pure (← parse_register (ops.getD 0 "")).1
    pure ((0b1101011 <<< 25) ||| (0b0010 <<< 21) ||| (0b11111 <<< 16) ||| (rn <<< 5))
  else do
    let is_link := mnem == "blr"
    let (rn, _) ← parse_register (← getOp ops 0)
    pure ((0b1101011 <<< 25) ||| (is_link.toNat <<< 21) ||| (0b11111 <<< 16) ||| (rn <<< 5))

/-- `_encode_cbz_cbnz`: compare-and-branch; relocation kind `cb` when the
label is unknown. -/
def encode_cbz_cbnz (mnem : String) (ops : List String)
    (labels : List (String × Nat)) (relocs : List Reloc) (address : Nat) :
    Except String (Nat × List Reloc) := do
  let is_nz := mnem == "cbnz"
  let (rt, sf) ← parse_register (← getOp ops 0)
  let label := pyTrim (← getOp ops 1)
  let (offset, relocs) : Nat × List Reloc :=
    match dictLookup labels label with
    | some target => (((((target : Int) - (address : Int)).fdiv 4).emod 524288).toNat, relocs)
    | none => (0, relocs ++ [(address, label, "cb")])
  pure ((sf.toNat <<< 31) ||| (0b011010 <<< 25) ||| (is_nz.toNat <<< 24) |||
    (offset <<< 5) ||| rt, relocs)

/-- `_encode_tbz_tbnz`: test-bit-and-branch; relocation kind `tb` when the
label is unknown. -/
def encode_tbz_tbnz (mnem : String) (ops : List String)
    (labels : List (String × Nat)) (relocs : List Reloc) (address : Nat) :
    Except String (Nat × List Reloc) := do
  let is_nz := mnem == "tbnz"
  let (rt, _) ← parse_register (← getOp ops 0)
  let bit ← parse_imm (← getOp ops 1)
  let label := pyTrim (← getOp ops 2)
  let (offset, relocs) : Nat × List Reloc :=
    match dictLookup labels label with
    | some target => (((((target : Int) - (address : Int)).fdiv 4).emod 16384).toNat, relocs)
    | none => (0, relocs ++ [(address, label, "tb")])
  let b40 : Nat := (bit.emod 32).toNat
  let b5 : Nat := ((bit.fdiv 32).emod 2).toNat
  pure ((b5 <<< 31) ||| (0b011011 <<< 25) ||| (is_nz.toNat <<< 24) ||| (b40 <<< 19) |||
    (offset <<< 5) ||| rt, relocs)

/-- `_encode_nop`. -/
def encode_nop (_mnem : String) (_ops : List String) : Except String Nat :=
  pure 0xD503201F

/-- `_encode_brk`: breakpoint with an unchecked immediate. -/
def encode_brk (_mnem : String) (ops : List String) : Except String Nat := do
  let imm : Int ← if ops.isEmpty then pure 0 else parse_imm (← getOp ops 0)
  pure ((0b11010100001 <<< 21) ||| (imm.toNat <<< 5))

/-- `_encode_svc`: supervisor call with an unchecked immediate. -/
def encode_svc (_mnem : String) (ops : List String) : Except String Nat := do
  let imm : Int ← if ops.isEmpty then pure 0 else parse_imm (← getOp ops 0)
  pure ((0b11010100000 <<< 21) ||| (imm.toNat <<< 5) ||| 0b00001)

/-- `_encode_mrs_msr`: simplified system-register access. -/
def encode_mrs_msr (mnem : String) (ops : List String) : Except String Nat := do
  let is_read := mnem == "mrs"
  if is_read then do
    let (rt, _) ← parse_register (← getOp ops 0)
    let op0 : Nat := 0b11
    pure ((0b1101010100 <<< 22) ||| (1 <<< 21) ||| (op0 <<< 19) ||| rt)
  else do
    let (rt, _) ← parse_register (← getOp ops 1)
    pure ((0b1101010100 <<< 22) ||| (0 <<< 21) ||| rt)

/-- `_encode_mov`: alias; immediate operand goes to MOVZ, register operand
to `ORR Rd, XZR, Rm`. -/
def encode_mov (_mnem : String) (ops : List String) : Except String Nat := do
  let (rd, sf) ← parse_register (← getOp ops 0)
  if pyStartsWith (pyTrim (← getOp ops 1)) "#" then
    encode_movz_movn_movk "movz" ops
  else do
    let (rm, _) ← parse_register (← getOp ops 1)
    pure ((sf.toNat <<< 31) ||| (0b01 <<< 29) ||| (0b01010 <<< 24) |||
      (rm <<< 16) ||| (31 <<< 5) ||| rd)

/-- `_encode_cmp`: SUBS with XZR destination, immediate field unchecked. -/
def encode_cmp (_mnem : String) (ops : List String) : Except String Nat := do
  let (rn, sf) ← parse_register (← getOp ops 0)
  if pyStartsWith (pyTrim (← getOp ops 1)) "#" then do
    let imm ← parse_imm (← getOp ops 1)
    pure ((sf.toNat <<< 31) ||| (0b111 <<< 28) ||| (0b100010 <<< 23) |||
      (imm.toNat <<< 10) ||| (rn <<< 5) ||| 31)
  else do
    let (rm, _) ← parse_register (← getOp ops 1)
    pure ((sf.toNat <<< 31) ||| (0b111 <<< 28) ||| (0b01011 <<< 24) |||
      (rm <<< 16) ||| (rn <<< 5) ||| 31)

/-- `_encode_csel`: CSEL/CSINC/CSINV/CSNEG. -/
def encode_csel (mnem : String) (ops : List String) : Except String Nat := do
  let op2 : Nat :=
    if mnem == "csel" then 0b00 else if mnem == "csinc" then 0b01
    else if mnem == "csinv" then 0b10 else if mnem == "csneg" then 0b11 else 0b00
  let (rd, sf) ← parse_register (← getOp ops 0)
  let (rn, _) ← parse_register (← getOp ops 1)
  let (rm, _) ← parse_register (← getOp ops 2)
  let cond := (conditionsLookup (pyToLower (← getOp ops 3))).getD 0b1110
  pure ((sf.toNat <<< 31) ||| (0b11010100 <<< 21) ||| (rm <<< 16) ||| (cond <<< 12) |||
    (rn <<< 5) ||| rd ||| (op2 <<< 10))

/-- `_try_imm_or_reg`: use the immediate encoder when the third operand
starts with `#`, otherwise the register encoder. -/
def try_imm_or_reg (mnem : String) (ops : List String)
    (immFn regFn : String → List String → Except String Nat) : Except String Nat :=
  if ops.length ≥ 3 && pyStartsWith (pyTrim (ops.getD 2 "")) "#" then immFn mnem ops
  else regFn mnem ops

/-- The comment-stripping loop at the top of `assemble_instruction`: truncate
at `;`, then `//`, then `#` — the `#` marker is ignored when the (current)
line contains a `[`. -/
def stripComments (line : String) : String :=
  let line := if pyHasSub line ";" then pySplitFirst line ";" else line
  let line := if pyHasSub line "//" then pySplitFirst line "//" else line
  let line := if pyHasSub line "#" && !pyHasChar line '[' then pySplitFirst line "#" else line
  line

/-- `assemble_instruction`: strip comments, register any `label:` prefix at
the current address, tokenize the mnemonic and comma-separated operands, and
dispatch; returns the encoded word (or `none` for a non-instruction line)
together with the possibly-updated label table and relocation list. -/
def assemble_instruction (labels : List (String × Nat)) (relocs : List Reloc)
    (address : Nat) (line : String) :
    Except String (Option Nat × List (String × Nat) × List Reloc) := do
  let line := pyTrim line
  let line := stripComments line
  if line.isEmpty then pure (none, labels, relocs)
  else
    let (labels, line) :=
      if pyHasChar line ':' && !pyHasChar line '[' then
        (dictSet labels (pyTrim (pySplitFirst line ":")) address,
         pyTrim (pySplitRest line ":"))
      else (labels, line)
    if line.isEmpty then pure (none, labels, relocs)
    else
      let parts := pySplitWs (pyReplace line "," " ")
      if parts.isEmpty then pure (none, labels, relocs)
      else
        let mnem := pyToLower (parts.headD "")
        let ops := (((pySplitOn (String.intercalate " " (parts.drop 1)) ",").map pyTrim).filter
          (fun p => !p.isEmpty))
        if pyStartsWith mnem "b." then do
          let (w, relocs) ← encode_b_cond mnem ops labels relocs address
          pure (some w, labels, relocs)
        else
          match mnem with
          | "add" => do pure (some (← try_imm_or_reg "add" ops encode_add_sub_imm encode_add_sub_reg), labels, relocs)
          | "adds" => do pure (some (← try_imm_or_reg "adds" ops encode_add_sub_imm encode_add_sub_reg), labels, relocs)
          | "sub" => do pure (some (← try_imm_or_reg "sub" ops encode_add_sub_imm encode_add_sub_reg), labels, relocs)
          | "subs" => do pure (some (← try_imm_or_reg "subs" ops encode_add_sub_imm encode_add_sub_reg), labels, relocs)
          | "and" => do pure (some (← try_imm_or_reg "and" ops encode_logical_imm encode_logical_reg), labels, relocs)
          | "orr" => do pure (some (← try_imm_or_reg "orr" ops encode_logical_imm encode_logical_reg), labels, relocs)
          | "eor" => do pure (some (← try_imm_or_reg "eor" ops encode_logical_imm encode_logical_reg), labels, relocs)
          | "ands" => do pure (some (← try_imm_or_reg "ands" ops encode_logical_imm encode_logical_reg), labels, relocs)
          | "bic" => do pure (some (← encode_logical_reg "bic" ops), labels, relocs)
          | "orn" => do pure (some (← encode_logical_reg "orn" ops), labels, relocs)
          | "eon" => do pure (some (← encode_logical_reg "eon" ops), labels, relocs)
          | "movz" => do pure (some (← encode_movz_movn_movk "movz" ops), labels, relocs)
          | "movn" => do pure (some (← encode_movz_movn_movk "movn" ops), labels, relocs)
          | "movk" => do pure (some (← encode_movz_movn_movk "movk" ops), labels, relocs)
          | "mov" => do pure (some (← encode_mov "mov" ops), labels, relocs)
          | "mul" => do pure (some (← encode_mul_div "mul" ops), labels, relocs)
          | "madd" => do pure (some (← encode_mul_div "madd" ops), labels, relocs)
          | "msub" => do pure (some (← encode_mul_div "msub" ops), labels, relocs)
          | "sdiv" => do pure (some (← encode_mul_div "sdiv" ops), labels, relocs)
          | "udiv" => do pure (some (← encode_mul_div "udiv" ops), labels, relocs)
          | "lsl" => do pure (some (← encode_shift "lsl" ops), labels, relocs)
          | "lsr" => do pure (some (← encode_shift "lsr" ops), labels, relocs)
          | "asr" => do pure (some (← encode_shift "asr" ops), labels, relocs)
          | "ror" => do pure (some (← encode_shift "ror" ops), labels, relocs)
          | "ldr" => do pure (some (← encode_ldr_str "ldr" ops), labels, relocs)
          | "str" => do pure (some (← encode_ldr_str "str" ops), labels, relocs)
          | "ldp" => do pure (some (← encode_ldp_stp "ldp" ops), labels, relocs)
          | "stp" => do pure (some (← encode_ldp_stp "stp" ops), labels, relocs)
          | "adr" => do
            let (w, relocs) ← encode_adr_adrp "adr" ops labels relocs address
            pure (some w, labels, relocs)
          | "adrp" => do
            let (w, relocs) ← encode_adr_adrp "adrp" ops labels relocs address
            pure (some w, labels, relocs)
          | "b" => do
            let (w, relocs) ← encode_b_bl "b" ops labels relocs address
            pure (some w, labels, relocs)
          | "bl" => do
            let (w, relocs) ← encode_b_bl "bl" ops labels relocs address
            pure (some w, labels, relocs)
          | "br" => do pure (some (← encode_br_blr_ret "br" ops), labels, relocs)
          | "blr" => do pure (some (← encode_br_blr_ret "blr" ops), labels, relocs)
          | "ret" => do pure (some (← encode_br_blr_ret "ret" ops), labels, relocs)
          | "cbz" => do
            let (w, relocs) ← encode_cbz_cbnz "cbz" ops labels relocs address
            pure (some w, labels, relocs)
          | "cbnz" => do
            let (w, relocs) ← encode_cbz_cbnz "cbnz" ops labels relocs address
            pure (some w, labels, relocs)
          | "tbz" => do
            let (w, relocs) ← encode_tbz_tbnz "tbz" ops labels relocs address
            pure (some w, labels, relocs)
          | "tbnz" => do
            let (w, relocs) ← encode_tbz_tbnz "tbnz" ops labels relocs address
            pure (some w, labels, relocs)
          | "cmp" => do pure (some (← encode_cmp "cmp" ops), labels, relocs)
          | "csel" => do pure (some (← encode_csel "csel" ops), labels, relocs)
          | "csinc" => do pure (some (← encode_csel "csinc" ops), labels, relocs)
          | "csinv" => do pure (some (← encode_csel "csinv" ops), labels, relocs)
          | "csneg" => do pure (some (← encode_csel "csneg" ops), labels, relocs)
          | "nop" => do pure (some (← encode_nop "nop" ops), labels, relocs)
          | "brk" => do pure (some (← encode_brk "brk" ops), labels, relocs)
          | "svc" => do pure (some (← encode_svc "svc" ops), labels, relocs)
          | "mrs" => do pure (some (← encode_mrs_msr "mrs" ops), labels, relocs)
          | "msr" => do pure (some (← encode_mrs_msr "msr" ops), labels, relocs)
          | _ => throw ("Unknown instruction: " ++ mnem)

/-- One line of pass 1 of `assemble`: skip blank and `;`/`//` comment lines,
register a `label:` prefix at the current address, skip `.` directives, and
advance the address by 4 for every other remaining non-empty line. -/
def pass1Step (st : List (String × Nat) × Nat) (rawLine : String) :
    List (String × Nat) × Nat :=
  let line := pyTrim rawLine
  if line.isEmpty || pyStartsWith line ";" || pyStartsWith line "//" then st
  else
    let labels := st.1
    let address := st.2
    let (labels, line) :=
      if pyHasChar line ':' && !pyHasChar line '[' then
        (dictSet labels (pyTrim (pySplitFirst line ":")) address,
         pyTrim (pySplitRest line ":"))
      else (labels, line)
    if pyStartsWith line "." then (labels, address)
    else if !line.isEmpty && !pyStartsWith line ";" && !pyStartsWith line "//" then
      (labels, address + 4)
    else (labels, address)

/-- Pass 1 of `assemble`: label collection over all lines, starting from the
base address with a cleared label table; returns the label table and the
final running address. -/
def pass1 (lines : List String) (base_address : Nat) : List (String × Nat) × Nat :=
  lines.foldl pass1Step ([], base_address)

/-- The per-entry action of `_resolve_relocations` on the machine-code list:
look the label up, compute the word index from the stored byte offset, and
patch that word; undefined labels and out-of-range indices leave the list
unchanged. -/
def patchInstr (rel_type : String) (target offset : Nat) (instr : Nat) : Nat :=
  if rel_type == "b" || rel_type == "bl" then
    let offset_val := ((((target : Int) - (offset : Int)).fdiv 4).emod 67108864).toNat
    (instr &&& 0xFC000000) ||| offset_val
  else if rel_type == "bcond" then
    let offset_val := ((((target : Int) - (offset : Int)).fdiv 4).emod 524288).toNat
    (instr &&& 0xFF00001F) ||| (offset_val <<< 5)
  else if rel_type == "cb" || rel_type == "cbz" || rel_type == "cbnz" then
    let offset_val := ((((target : Int) - (offset : Int)).fdiv 4).emod 524288).toNat
    (instr &&& 0xFF00001F) ||| (offset_val <<< 5)
  else if rel_type == "tb" || rel_type == "tbz" || rel_type == "tbnz" then
    let offset_val := ((((target : Int) - (offset : Int)).fdiv 4).emod 16384).toNat
    (instr &&& 0xFFF8001F) ||| (offset_val <<< 5)
  else if rel_type == "adr" || rel_type == "adrp" then
    let offset_val : Int := (target : Int) - (offset : Int)
    let offset_val := if rel_type == "adrp" then offset_val.fdiv 4096 else offset_val
    let immlo := (offset_val.emod 4).toNat
    let immhi := ((offset_val.fdiv 4).emod 524288).toNat
    (instr &&& 0x9F00001F) ||| (immlo <<< 29) ||| (immhi <<< 5)
  else instr

/-- The machine-code effect of one relocation entry in
`_resolve_relocations` (offsets produced by pass 2 are always ≥ the base
address, so the Python `//` index computation is `Nat` arithmetic here). -/
def stepMC (base_address : Nat) (labels : List (String × Nat))
    (mc : List Nat) (r : Reloc) : List Nat :=
  match dictLookup labels r.2.1 with
  | none => mc
  | some target =>
    let idx := (r.1 - base_address) / 4
    if idx < mc.length then
      mc.set idx (patchInstr r.2.2 target r.1 (mc.getD idx 0))
    else mc

/-- One entry of `_resolve_relocations`: patch the buffer when the label is
defined, emit the stderr warning when it is not. -/
def resolveStep (base_address : Nat) (labels : List (String × Nat))
    (acc : List Nat × List String) (r : Reloc) : List Nat × List String :=
  (stepMC base_address labels acc.1 r,
   if dictContains labels r.2.1 then acc.2
   else acc.2 ++ ["Warning: Undefined label \x27" ++ r.2.1 ++ "\x27"])

/-- `_resolve_relocations`: fold over the relocation list, returning the
patched machine code and the warnings printed to the diagnostic stream. -/
def resolve_relocations (base_address : Nat) (labels : List (String × Nat))
    (relocs : List Reloc) (mc : List Nat) : List Nat × List String :=
  relocs.foldl (resolveStep base_address labels) (mc, [])

/-- The state a run of `assemble` leaves in the assembler instance, plus the
warnings `_resolve_relocations` printed. -/
structure AsmResult where
  labels : List (String × Nat)
  relocations : List Reloc
  machine_code : List Nat
  warnings : List String
deriving Repr, DecidableEq

/-- `assemble`: two-pass assembly of a source string — pass 1 collects
labels, pass 2 encodes instructions and defers relocations, and the
relocation resolver patches the emitted words in place.  Any pass-2
exception aborts the whole run. -/
def assemble (source : String) (base_address : Nat) : Except String AsmResult := do
  let lines := pySplitOn (pyTrim source) "\n"
  let labels0 := (pass1 lines base_address).1
  let st ← lines.foldlM
    (fun (st : List (String × Nat) × List Reloc × Nat × List Nat) line => do
      let (labels, relocs, address, mc) := st
      let (w?, labels, relocs) ← assemble_instruction labels relocs address line
      match w? with
      | some w => pure (labels, relocs, address + 4, mc ++ [w])
      | none => pure (labels, relocs, address, mc))
    (labels0, ([] : List Reloc), base_address, ([] : List Nat))
  let (labels, relocs, _, mc) := st
  let (mc, warns) := resolve_relocations base_address labels relocs mc
  pure { labels := labels, relocations := relocs, machine_code := mc, warnings := warns }

/-- Little-endian serialization of `struct.pack("<I", v)`. -/
def u32le (v : Nat) : List Nat :=
  [v % 256, v / 256 % 256, v / 65536 % 256, v / 16777216 % 256]

/-- Little-endian serialization of `struct.pack("<Q", v)`. -/
def u64le (v : Nat) : List Nat :=
  [v % 256, v / 256 % 256, v / 65536 % 256, v / 16777216 % 256,
   v / 4294967296 % 256, v / 1099511627776 % 256,
   v / 281474976710656 % 256, v / 72057594037927936 % 256]

/-- The 16 bytes of the segment name `"__PAGEZERO"` (NUL padded). -/
def segnamePagezero : List Nat :=
  [0x5F, 0x5F, 0x50, 0x41, 0x47, 0x45, 0x5A, 0x45, 0x52, 0x4F, 0, 0, 0, 0, 0, 0]

/-- The 16 bytes of the segment name `"__TEXT"` (NUL padded). -/
def segnameText : List Nat :=
  [0x5F, 0x5F, 0x54, 0x45, 0x58, 0x54, 0, 0, 0, 0, 0, 0, 0, 0, 0, 0]

/-- The 16 bytes of the section name `"__text"` (NUL padded). -/
def sectnameText : List Nat :=
  [0x5F, 0x5F, 0x74, 0x65, 0x78, 0x74, 0, 0, 0, 0, 0, 0, 0, 0, 0, 0]

/-- The `LC_SEGMENT_64 __PAGEZERO` load command bytes. -/
def pagezeroCmd : List Nat :=
  u32le 0x19 ++ u32le 72 ++ segnamePagezero ++ u64le 0 ++ u64le 0x100000000 ++
  u64le 0 ++ u64le 0 ++ u32le 0 ++ u32le 0 ++ u32le 0 ++ u32le 0

/-- The `LC_SEGMENT_64 __TEXT` load command (with its one `__text` section)
for a text section of `text_size` bytes. -/
def textSegCmd (text_size : Nat) : List Nat :=
  u32le 0x19 ++ u32le 152 ++ segnameText ++ u64le 0x100000000 ++ u64le 0x4000 ++
  u64le 0 ++ u64le (0x4000 + text_size) ++ u32le 0x7 ++ u32le 0x5 ++ u32le 1 ++ u32le 0 ++
  sectnameText ++ segnameText ++ u64le 0x100000000 ++ u64le text_size ++
  u32le 0x4000 ++ u32le 2 ++ u32le 0 ++ u32le 0 ++ u32le 0x80000400 ++
  u32le 0 ++ u32le 0 ++ u32le 0

/-- The `LC_MAIN` load command recording the entry offset. -/
def mainCmd (entryoff : Nat) : List Nat :=
  u32le 0x80000028 ++ u32le 24 ++ u64le entryoff ++ u64le 0

/-- The three load commands of the emitted executable, in file order. -/
def machoLoadCmds (entry_addr text_size : Nat) : List Nat :=
  pagezeroCmd ++ textSegCmd text_size ++ mainCmd (entry_addr - 0x100000000)

/-- The 32-byte Mach-O header with the back-patched `sizeofcmds` field. -/
def machoHeader (sizeofcmds : Nat) : List Nat :=
  u32le 0xFEEDFACF ++ u32le 0x0100000C ++ u32le 0x00000000 ++
  u32le 0x00000002 ++ u32le 3 ++ u32le sizeofcmds ++ u32le 0x00200085 ++ u32le 0

/-- The byte stream `generate_macho` writes for a given entry address and
machine-code list: header (with the back-patched `sizeofcmds`), the three
load commands, zero padding up to the page-aligned text file offset 0x4000,
then the little-endian machine-code words. -/
def machoBytes (entry_addr : Nat) (mc : List Nat) : List Nat :=
  let loadCmds := machoLoadCmds entry_addr (mc.length * 4)
  let header := machoHeader loadCmds.length
  header ++ loadCmds ++
    List.replicate (0x4000 - (header ++ loadCmds).length) 0 ++
    mc.flatMap u32le

/-- `generate_macho`: a fatal error before anything is written when the
entry label is missing, otherwise the full output-file byte stream. -/
def generate_macho (labels : List (String × Nat)) (entry_point : String)
    (mc : List Nat) : Except String (List Nat) :=
  match dictLookup labels entry_point with
  | none => .error ("Entry point \x27" ++ entry_point ++ "\x27 not found")
  | some entry_addr => .ok (machoBytes entry_addr mc)

/-- The word index of the machine-code buffer that a relocation entry
patches (`(offset - base_address) // 4`). -/
def relocIdx (base_address : Nat) (r : Reloc) : Nat :=
  (r.1 - base_address) / 4

/-- The AND-mask each relocation kind's patch keeps (the complement of its
immediate field in the 32-bit word); kinds the resolver does not know keep
everything. -/
def keepMask (rel_type : String) : Nat :=
  if rel_type == "b" || rel_type == "bl" then 0xFC000000
  else if rel_type == "bcond" then 0xFF00001F
  else if rel_type == "cb" || rel_type == "cbz" || rel_type == "cbnz" then 0xFF00001F
  else if rel_type == "tb" || rel_type == "tbz" || rel_type == "tbnz" then 0xFFF8001F
  else if rel_type == "adr" || rel_type == "adrp" then 0x9F00001F
  else 0xFFFFFFFF

theorem and_eq_zero_of_window (f m lo w : Nat)
    (hf_lo : ∀ i, i < lo → f.testBit i = false)
    (hf_hi : ∀ i, lo + w ≤ i → f.testBit i = false)
    (hm : ∀ i, i < lo + w → lo ≤ i → m.testBit i = false) :
    f &&& m = 0 := by
  apply Nat.eq_of_testBit_eq
  intro i
  simp only [Nat.testBit_and, Nat.zero_testBit, Bool.and_eq_false_iff]
  rcases lt_or_le i lo with h | h
  · exact Or.inl (hf_lo i h)
  · rcases lt_or_le i (lo + w) with h2 | h2
    · exact Or.inr (hm i h2 h)
    · exact Or.inl (hf_hi i h2)

theorem and_mask_or_field (a f m : Nat) (h : f &&& m = 0) :
    ((a &&& m) ||| f) &&& m = a &&& m := by
  apply Nat.eq_of_testBit_eq
  intro i
  have hb := congrArg (fun x => x.testBit i) h
  simp only [Nat.testBit_and, Nat.zero_testBit, Bool.and_eq_false_iff] at hb
  simp only [Nat.testBit_and, Nat.testBit_or]
  rcases hb with hf | hm
  · simp [hf]
  · simp [hm]

theorem mask_or_idem (a f m : Nat) :
    ((((a &&& m) ||| f) &&& m) ||| f) = (a &&& m) ||| f := by
  apply Nat.eq_of_testBit_eq
  intro i
  simp only [Nat.testBit_and, Nat.testBit_or]
  cases a.testBit i <;> cases f.testBit i <;> cases m.testBit i <;> rfl

theorem emod_toNat_lt (x : Int) (m : Nat) (hm : 0 < m) : (x.emod m).toNat < m := by
  have h1 : x.emod m < (m : Int) := Int.emod_lt_of_pos x (by exact_mod_cast hm)
  omega

theorem low_bits_zero_of_shift (x s : Nat) : ∀ i, i < s → (x <<< s).testBit i = false := by
  intro i hi
  simp [Nat.testBit_shiftLeft, Nat.not_le_of_lt hi]

theorem testBit_false_of_lt {x n i : Nat} (hx : x < 2 ^ n) (h : n ≤ i) :
    x.testBit i = false :=
  Nat.testBit_lt_two_pow (lt_of_lt_of_le hx (Nat.pow_le_pow_right (by norm_num) h))

theorem shifted_window_and_zero (x lo w m : Nat) (hx : x < 2 ^ w)
    (hm : ∀ i, i < lo + w → lo ≤ i → m.testBit i = false) :
    (x <<< lo) &&& m = 0 := by
  apply and_eq_zero_of_window _ _ lo w
  · exact low_bits_zero_of_shift x lo
  · intro i hi
    rw [Nat.testBit_shiftLeft]
    rcases le_or_lt lo i with h | h
    · simp only [h, decide_True, Bool.true_and]
      exact testBit_false_of_lt hx (by omega)
    · simp [Nat.not_le_of_lt h]
  · exact hm

theorem or_and_zero (a b m : Nat) (ha : a &&& m = 0) (hb : b &&& m = 0) :
    (a ||| b) &&& m = 0 := by
  apply Nat.eq_of_testBit_eq
  intro i
  have e1 := congrArg (fun x => x.testBit i) ha
  have e2 := congrArg (fun x => x.testBit i) hb
  simp only [Nat.testBit_and, Nat.zero_testBit, Bool.and_eq_false_iff] at e1 e2
  simp only [Nat.testBit_and, Nat.testBit_or, Nat.zero_testBit]
  rcases e1 with e1 | e1 <;> rcases e2 with e2 | e2 <;> simp [e1, e2]

theorem patch_keeps_mask (k : String) (target offset instr : Nat) :
    patchInstr k target offset instr &&& keepMask k = instr &&& keepMask k := by
  by_cases hb : k == "b" || k == "bl"
  · unfold patchInstr keepMask
    rw [if_pos hb, if_pos hb]
    apply and_mask_or_field
    apply and_eq_zero_of_window _ _ 0 26
    · omega
    · intro i hi
      exact testBit_false_of_lt (n := 26) (emod_toNat_lt _ 67108864 (by norm_num)) (by omega)
    · decide
  · by_cases hc : k == "bcond"
    · unfold patchInstr keepMask
      rw [if_neg hb, if_neg hb, if_pos hc, if_pos hc]
      apply and_mask_or_field
      exact shifted_window_and_zero _ 5 19 _ (emod_toNat_lt _ 524288 (by norm_num)) (by decide)
    · by_cases hcb : k == "cb" || k == "cbz" || k == "cbnz"
      · unfold patchInstr keepMask
        rw [if_neg hb, if_neg hb, if_neg hc, if_neg hc, if_pos hcb, if_pos hcb]
        apply and_mask_or_field
        exact shifted_window_and_zero _ 5 19 _ (emod_toNat_lt _ 524288 (by norm_num)) (by decide)
      · by_cases htb : k == "tb" || k == "tbz" || k == "tbnz"
        · unfold patchInstr keepMask
          rw [if_neg hb, if_neg hb, if_neg hc, if_neg hc, if_neg hcb, if_neg hcb,
            if_pos htb, if_pos htb]
          apply and_mask_or_field
          exact shifted_window_and_zero _ 5 14 _ (emod_toNat_lt _ 16384 (by norm_num)) (by decide)
        · by_cases had : k == "adr" || k == "adrp"
          · unfold patchInstr keepMask
            rw [if_neg hb, if_neg hb, if_neg hc, if_neg hc, if_neg hcb, if_neg hcb,
              if_neg htb, if_neg htb, if_pos had, if_pos had]
            rw [Nat.or_assoc]
            apply and_mask_or_field
            apply or_and_zero
            · exact shifted_window_and_zero _ 29 2 _ (emod_toNat_lt _ 4 (by norm_num)) (by decide)
            · exact shifted_window_and_zero _ 5 19 _ (emod_toNat_lt _ 524288 (by norm_num)) (by decide)
          · unfold patchInstr keepMask
            rw [if_neg hb, if_neg hb, if_neg hc, if_neg hc, if_neg hcb, if_neg hcb,
              if_neg htb, if_neg htb, if_neg had, if_neg had]

theorem patch_idem (k : String) (target offset instr : Nat) :
    patchInstr k target offset (patchInstr k target offset instr) =
      patchInstr k target offset instr := by
  unfold patchInstr
  by_cases hb : k == "b" || k == "bl"
  · simp only [if_pos hb]
    exact mask_or_idem _ _ _
  · by_cases hc : k == "bcond"
    · simp only [if_neg hb, if_pos hc]
      exact mask_or_idem _ _ _
    · by_cases hcb : k == "cb" || k == "cbz" || k == "cbnz"
      · simp only [if_neg hb, if_neg hc, if_pos hcb]
        exact mask_or_idem _ _ _
      · by_cases htb : k == "tb" || k == "tbz" || k == "tbnz"
        · simp only [if_neg hb, if_neg hc, if_neg hcb, if_pos htb]
          exact mask_or_idem _ _ _
        · by_cases had : k == "adr" || k == "adrp"
          · simp only [if_neg hb, if_neg hc, if_neg hcb, if_neg htb, if_pos had]
            rw [Nat.or_assoc, Nat.or_assoc, mask_or_idem]
          · rw [if_neg hb, if_neg hc, if_neg hcb, if_neg htb, if_neg had,
              if_neg hb, if_neg hc, if_neg hcb, if_neg htb, if_neg had]

theorem getD_set_ne (l : List Nat) (i j a d : Nat) (h : i ≠ j) :
    (l.set i a).getD j d = l.getD j d := by
  induction l generalizing i j with
  | nil => simp [List.set]
  | cons x t ih =>
    cases i with
    | zero =>
      cases j with
      | zero => omega
      | succ j => simp [List.set, List.getD]
    | succ i =>
      cases j with
      | zero => simp [List.set, List.getD]
      | succ j =>
        simp only [List.set, List.getD_cons_succ]
        exact ih i j (by omega)

theorem getD_set_self (l : List Nat) (i a d : Nat) (h : i < l.length) :
    (l.set i a).getD i d = a := by
  induction l generalizing i with
  | nil => simp at h
  | cons x t ih =>
    cases i with
    | zero => simp [List.set]
    | succ i =>
      simp only [List.set, List.getD_cons_succ]
      exact ih i (by simpa using h)

theorem stepMC_length (base : Nat) (labels : List (String × Nat)) (mc : List Nat) (r : Reloc) :
    (stepMC base labels mc r).length = mc.length := by
  unfold stepMC
  cases dictLookup labels r.2.1 with
  | none => rfl
  | some t =>
    by_cases h : (r.1 - base) / 4 < mc.length
    · simp [h]
    · simp [h]

theorem stepMC_getD_ne (base : Nat) (labels : List (String × Nat)) (mc : List Nat)
    (r : Reloc) (j d : Nat) (h : j ≠ relocIdx base r) :
    (stepMC base labels mc r).getD j d = mc.getD j d := by
  unfold stepMC
  cases dictLookup labels r.2.1 with
  | none => rfl
  | some t =>
    by_cases hlt : (r.1 - base) / 4 < mc.length
    · simp only [if_pos hlt]
      exact getD_set_ne mc _ j _ d (fun he => h (he ▸ rfl))
    · simp [hlt]

theorem stepMC_idem (base : Nat) (labels : List (String × Nat)) (mc : List Nat) (r : Reloc) :
    stepMC base labels (stepMC base labels mc r) r = stepMC base labels mc r := by
  unfold stepMC
  cases hl : dictLookup labels r.2.1 with
  | none => rfl
  | some t =>
    by_cases hlt : (r.1 - base) / 4 < mc.length
    · simp only [if_pos hlt, List.length_set, getD_set_self mc _ _ 0 hlt, patch_idem,
        List.set_set]
    · simp [hlt]

theorem stepMC_comm (base : Nat) (labels : List (String × Nat)) (mc : List Nat)
    (r1 r2 : Reloc) (h : relocIdx base r1 ≠ relocIdx base r2) :
    stepMC base labels (stepMC base labels mc r1) r2 =
      stepMC base labels (stepMC base labels mc r2) r1 := by
  unfold stepMC relocIdx at *
  cases h1 : dictLookup labels r1.2.1 with
  | none =>
    cases h2 : dictLookup labels r2.2.1 with
    | none => rfl
    | some t2 => rfl
  | some t1 =>
    cases h2 : dictLookup labels r2.2.1 with
    | none => rfl
    | some t2 =>
      by_cases g1 : (r1.1 - base) / 4 < mc.length
      · by_cases g2 : (r2.1 - base) / 4 < mc.length
        · simp only [if_pos g1, if_pos g2, List.length_set, if_pos g1, if_pos g2,
            getD_set_ne mc _ _ _ 0 (fun he => h he.symm),
            getD_set_ne mc _ _ _ 0 h]
          exact List.set_comm _ _ mc (fun he => h he)
        · simp only [if_pos g1, List.length_set, if_neg g2, if_pos g1]
      · by_cases g2 : (r2.1 - base) / 4 < mc.length
        · simp only [if_neg g1, if_pos g2, List.length_set, if_neg g1]
        · simp only [if_neg g1, if_neg g2]

theorem resolve_fst_eq_foldl (base : Nat) (labels : List (String × Nat))
    (relocs : List Reloc) (mc : List Nat) (ws : List String) :
    (relocs.foldl (resolveStep base labels) (mc, ws)).1 =
      relocs.foldl (stepMC base labels) mc := by
  induction relocs generalizing mc ws with
  | nil => rfl
  | cons r t ih => exact ih _ _

theorem stepMC_foldl_comm (base : Nat) (labels : List (String × Nat))
    (relocs : List Reloc) (mc : List Nat) (r : Reloc)
    (h : ∀ r' ∈ relocs, relocIdx base r' ≠ relocIdx base r) :
    stepMC base labels (relocs.foldl (stepMC base labels) mc) r =
      relocs.foldl (stepMC base labels) (stepMC base labels mc r) := by
  induction relocs generalizing mc with
  | nil => rfl
  | cons a t ih =>
    simp only [List.foldl_cons]
    rw [ih _ (fun r' hr' => h r' (List.mem_cons_of_mem a hr')),
      stepMC_comm base labels mc a r (h a (List.mem_cons_self a t))]

theorem foldl_stepMC_idem (base : Nat) (labels : List (String × Nat))
    (relocs : List Reloc) (mc : List Nat)
    (h : relocs.Pairwise (fun r1 r2 => relocIdx base r1 ≠ relocIdx base r2)) :
    relocs.foldl (stepMC base labels) (relocs.foldl (stepMC base labels) mc) =
      relocs.foldl (stepMC base labels) mc := by
  induction relocs generalizing mc with
  | nil => rfl
  | cons r t ih =>
    rcases List.pairwise_cons.mp h with ⟨hr, ht⟩
    simp only [List.foldl_cons]
    rw [stepMC_foldl_comm base labels t (stepMC base labels mc r) r
      (fun r' hr' => (hr r' hr').symm), stepMC_idem]
    exact ih _ ht

theorem foldl_stepMC_perm (base : Nat) (labels : List (String × Nat))
    (relocs relocs' : List Reloc) (mc : List Nat)
    (hp : relocs.Perm relocs')
    (h : relocs.Pairwise (fun r1 r2 => relocIdx base r1 ≠ relocIdx base r2)) :
    relocs.foldl (stepMC base labels) mc = relocs'.foldl (stepMC base labels) mc := by
  apply hp.foldl_eq'
  intro x hx y hy z
  by_cases hxy : x = y
  · rw [hxy]
  · have hsym : Symmetric (fun (r1 r2 : Reloc) => relocIdx base r1 ≠ relocIdx base r2) :=
      fun a b hab => hab.symm
    exact stepMC_comm base labels z x y (h.forall hsym hx hy hxy)

theorem machoLoadCmds_length (a s : Nat) : (machoLoadCmds a s).length = 248 := by
  simp [machoLoadCmds, pagezeroCmd, textSegCmd, mainCmd, u32le, u64le,
    segnamePagezero, segnameText, sectnameText]

theorem machoHeader_length (n : Nat) : (machoHeader n).length = 32 := by
  simp [machoHeader, u32le]

theorem machoBytes_eq (addr : Nat) (mc : List Nat) :
    machoBytes addr mc =
      machoHeader 248 ++ machoLoadCmds addr (mc.length * 4) ++
      List.replicate 16104 0 ++ mc.flatMap u32le := by
  simp only [machoBytes]
  rw [machoLoadCmds_length,
    show (machoHeader 248 ++ machoLoadCmds addr (mc.length * 4)).length = 280 by
      rw [List.length_append, machoHeader_length, machoLoadCmds_length],
    show (0x4000 - 280 : Nat) = 16104 from rfl]

theorem u32le_magic : u32le 0xFEEDFACF = [0xCF, 0xFA, 0xED, 0xFE] := rfl

theorem machoBytes_take4 (addr : Nat) (mc : List Nat) :
    (machoBytes addr mc).take 4 = [0xCF, 0xFA, 0xED, 0xFE] := by
  rw [machoBytes_eq]
  simp only [machoHeader, List.append_assoc]
  rw [u32le_magic]
  exact List.take_left' rfl

theorem machoBytes_padding (addr : Nat) (mc : List Nat) (i : Nat)
    (h1 : 280 ≤ i) (h2 : i < 0x4000) :
    (machoBytes addr mc).getD i 1 = 0 := by
  rw [machoBytes_eq]
  have hlen : (machoHeader 248 ++ machoLoadCmds addr (mc.length * 4)).length = 280 := by
    rw [List.length_append, machoHeader_length, machoLoadCmds_length]
  rw [List.append_assoc (machoHeader 248 ++ machoLoadCmds addr (mc.length * 4))
      (List.replicate 16104 0) (mc.flatMap u32le),
    List.getD_eq_getElem?_getD,
    List.getElem?_append_right (by rw [hlen]; omega),
    List.getElem?_append_left (by rw [List.length_replicate, hlen]; omega),
    List.getElem?_replicate_of_lt (by rw [hlen]; omega)]
  rfl

theorem machoBytes_code (addr : Nat) (mc : List Nat) :
    (machoBytes addr mc).drop 0x4000 = mc.flatMap u32le := by
  rw [machoBytes_eq]
  apply List.drop_left'
  rw [List.length_append, List.length_append, machoHeader_length, machoLoadCmds_length,
    List.length_replicate]

theorem machoBytes_entryoff (addr : Nat) (mc : List Nat) :
    ((machoBytes addr mc).drop 264).take 8 = u64le (addr - 0x100000000) := by
  rw [machoBytes_eq]
  have h : machoHeader 248 ++ machoLoadCmds addr (mc.length * 4) ++
      List.replicate 16104 0 ++ mc.flatMap u32le =
      (machoHeader 248 ++ (pagezeroCmd ++ (textSegCmd (mc.length * 4) ++
        (u32le 0x80000028 ++ u32le 24)))) ++
      (u64le (addr - 0x100000000) ++ (u64le 0 ++
        (List.replicate 16104 0 ++ mc.flatMap u32le))) := by
    simp only [machoLoadCmds, mainCmd, List.append_assoc]
  rw [h, List.drop_left' (by
    simp [machoHeader_length, pagezeroCmd, textSegCmd, u32le, u64le,
      segnamePagezero, segnameText, sectnameText])]
  exact List.take_left' rfl

theorem machoBytes_length (addr : Nat) (mc : List Nat) :
    (machoBytes addr mc).length = 0x4000 + 4 * mc.length := by
  rw [machoBytes_eq]
  rw [List.length_append, List.length_append, List.length_append,
    machoHeader_length, machoLoadCmds_length, List.length_replicate]
  have hfl : (mc.flatMap u32le).length = 4 * mc.length := by
    induction mc with
    | nil => rfl
    | cons x t ih =>
      rw [List.flatMap_cons, List.length_append, ih]
      simp [u32le]
      omega
  omega

theorem except_bind_ok {α β : Type} (a : α) (f : α → Except String β) :
    (Except.ok a : Except String α) >>= f = f a := rfl

theorem except_pure_eq {α : Type} (a : α) :
    (pure a : Except String α) = Except.ok a := rfl

theorem except_throw_eq {α : Type} (s : String) :
    (throw s : Except String α) = Except.error s := rfl

/-- Claim C2 amended: during pass 2 every label-referencing instruction family
(unconditional branch, conditional branch, compare-and-branch, test-bit-and-
branch, PC-relative address) appends a relocation entry — of kind `b`,
`bcond`, `cb`, `tb`, `adr` or `adrp`, with the instruction's offset (or
`immlo`/`immhi`) field encoded as zero — only when the target label is not in
the label table at encode time; when the label is already known, the field is
resolved eagerly inline and no relocation entry is created. -/
theorem c2_amended (mnem lbl reg bitStr : String) (labels : List (String × Nat))
    (relocs : List Reloc) (address target : Nat) (rn : Nat) (sf : Bool) (bit : Int) :
    (dictLookup labels (pyTrim lbl) = some target →
      encode_b_bl mnem [lbl] labels relocs address =
        .ok (((mnem == "bl").toNat <<< 31) ||| (0b00101 <<< 26) |||
          ((((target : Int) - (address : Int)).fdiv 4).emod 67108864).toNat, relocs)) ∧
    (dictLookup labels (pyTrim lbl) = none →
      encode_b_bl mnem [lbl] labels relocs address =
        .ok (((mnem == "bl").toNat <<< 31) ||| (0b00101 <<< 26),
          relocs ++ [(address, pyTrim lbl, "b")])) ∧
    (pyHasChar mnem '.' = true →
      dictLookup labels (pyTrim lbl) = some target →
      encode_b_cond mnem [lbl] labels relocs address =
        .ok ((0b01010100 <<< 24) |||
          (((((target : Int) - (address : Int)).fdiv 4).emod 524288).toNat <<< 5) |||
          (conditionsLookup (pyToLower ((pySplitOn mnem ".").getD 1 ""))).getD 0b1110,
          relocs)) ∧
    (pyHasChar mnem '.' = true →
      dictLookup labels (pyTrim lbl) = none →
      encode_b_cond mnem [lbl] labels relocs address =
        .ok ((0b01010100 <<< 24) |||
          (conditionsLookup (pyToLower ((pySplitOn mnem ".").getD 1 ""))).getD 0b1110,
          relocs ++ [(address, pyTrim lbl, "bcond")])) ∧
    (parse_register reg = .ok (rn, sf) →
      dictLookup labels (pyTrim lbl) = some target →
      encode_cbz_cbnz mnem [reg, lbl] labels relocs address =
        .ok ((sf.toNat <<< 31) ||| (0b011010 <<< 25) ||| ((mnem == "cbnz").toNat <<< 24) |||
          (((((target : Int) - (address : Int)).fdiv 4).emod 524288).toNat <<< 5) ||| rn,
          relocs)) ∧
    (parse_register reg = .ok (rn, sf) →
      dictLookup labels (pyTrim lbl) = none →
      encode_cbz_cbnz mnem [reg, lbl] labels relocs address =
        .ok ((sf.toNat <<< 31) ||| (0b011010 <<< 25) ||| ((mnem == "cbnz").toNat <<< 24) ||| rn,
          relocs ++ [(address, pyTrim lbl, "cb")])) ∧
    (parse_register reg = .ok (rn, sf) → parse_imm bitStr = .ok bit →
      dictLookup labels (pyTrim lbl) = some target →
      encode_tbz_tbnz mnem [reg, bitStr, lbl] labels relocs address =
        .ok ((((bit.fdiv 32).emod 2).toNat <<< 31) ||| (0b011011 <<< 25) |||
          ((mnem == "tbnz").toNat <<< 24) ||| ((bit.emod 32).toNat <<< 19) |||
          (((((target : Int) - (address : Int)).fdiv 4).emod 16384).toNat <<< 5) ||| rn,
          relocs)) ∧
    (parse_register reg = .ok (rn, sf) → parse_imm bitStr = .ok bit →
      dictLookup labels (pyTrim lbl) = none →
      encode_tbz_tbnz mnem [reg, bitStr, lbl] labels relocs address =
        .ok ((((bit.fdiv 32).emod 2).toNat <<< 31) ||| (0b011011 <<< 25) |||
          ((mnem == "tbnz").toNat <<< 24) ||| ((bit.emod 32).toNat <<< 19) ||| rn,
          relocs ++ [(address, pyTrim lbl, "tb")])) ∧
    (parse_register reg = .ok (rn, sf) →
      dictLookup labels (pyTrim lbl) = some target →
      encode_adr_adrp "adr" [reg, lbl] labels relocs address =
        .ok (((((target : Int) - (address : Int)).emod 4).toNat <<< 29) ||| (0b10000 <<< 24) |||
          (((((target : Int) - (address : Int)).fdiv 4).emod 524288).toNat <<< 5) ||| rn,
          relocs)) ∧
    (parse_register reg = .ok (rn, sf) →
      dictLookup labels (pyTrim lbl) = none →
      encode_adr_adrp "adr" [reg, lbl] labels relocs address =
        .ok ((0b10000 <<< 24) ||| rn, relocs ++ [(address, pyTrim lbl, "adr")])) ∧
    (parse_register reg = .ok (rn, sf) →
      dictLookup labels (pyTrim lbl) = some target →
      encode_adr_adrp "adrp" [reg, lbl] labels relocs address =
        .ok ((1 <<< 31) |||
          (((((((target : Int) - (address : Int)).fdiv 4096).emod 2097152)).emod 4).toNat <<< 29) |||
          (0b10000 <<< 24) |||
          (((((((target : Int) - (address : Int)).fdiv 4096).emod 2097152)).fdiv 4).emod
            524288).toNat <<< 5 ||| rn,
          relocs)) ∧
    (parse_register reg = .ok (rn, sf) →
      dictLookup labels (pyTrim lbl) = none →
      encode_adr_adrp "adrp" [reg, lbl] labels relocs address =
        .ok ((1 <<< 31) ||| (0b10000 <<< 24) ||| rn,
          relocs ++ [(address, pyTrim lbl, "adrp")])) := by
  refine ⟨?_, ?_, ?_, ?_, ?_, ?_, ?_, ?_, ?_, ?_, ?_, ?_⟩
  · intro h
    simp [encode_b_bl, getOp, h, except_bind_ok]
  · intro h
    simp [encode_b_bl, getOp, h, except_bind_ok]
  · intro hdot h
    simp [encode_b_cond, getOp, getLastOp, hdot, h, except_bind_ok]
  · intro hdot h
    simp [encode_b_cond, getOp, getLastOp, hdot, h, except_bind_ok]
  · intro hreg h
    simp [encode_cbz_cbnz, getOp, hreg, h, except_bind_ok]
  · intro hreg h
    simp [encode_cbz_cbnz, getOp, hreg, h, except_bind_ok]
  · intro hreg hbit h
    simp [encode_tbz_tbnz, getOp, hreg, hbit, h, except_bind_ok]
  · intro hreg hbit h
    simp [encode_tbz_tbnz, getOp, hreg, hbit, h, except_bind_ok]
  · intro hreg h
    simp [encode_adr_adrp, getOp, hreg, h, except_bind_ok]
  · intro hreg h
    simp [encode_adr_adrp, getOp, hreg, h, except_bind_ok]
  · intro hreg h
    simp [encode_adr_adrp, getOp, hreg, h, except_bind_ok]
  · intro hreg h
    simp [encode_adr_adrp, getOp, hreg, h, except_bind_ok]

/-- Claim C4 amended: the ADD/SUB-immediate encoder raises `Immediate out of
range` for any parsed immediate outside `[0, 4096)`, and the MOVZ/MOVN/MOVK
encoder raises for any immediate outside `[0, 65536)` (two-operand form); but
this is not true of every family — the logical-immediate and BRK encoders
silently truncate (see the counterexample). -/
theorem c4_amended (mnem r1 r2 i1 : String) (rd rn : Nat) (sf b1 : Bool) (v : Int) :
    (parse_register r1 = .ok (rd, sf) → parse_register r2 = .ok (rn, b1) →
      parse_imm i1 = .ok v → (v < 0 ∨ 4096 ≤ v) →
      encode_add_sub_imm mnem [r1, r2, i1] =
        .error ("Immediate out of range: " ++ toString v)) ∧
    ((mnem = "movz" ∨ mnem = "movn" ∨ mnem = "movk") →
      parse_register r1 = .ok (rd, sf) → parse_imm i1 = .ok v → (v < 0 ∨ 65536 ≤ v) →
      encode_movz_movn_movk mnem [r1, i1] =
        .error ("Immediate out of range: " ++ toString v)) := by
  constructor
  · intro h1 h2 h3 h4
    simp [encode_add_sub_imm, getOp, h1, h2, h3, except_bind_ok, except_throw_eq, if_pos h4]
  · intro hm h1 h3 h4
    rcases hm with hm | hm | hm <;>
      subst hm <;>
      simp [encode_movz_movn_movk, getOp, h1, h3, except_bind_ok, except_throw_eq, if_pos h4]

theorem resolve_singleton (base : Nat) (labels : List (String × Nat))
    (r : Reloc) (mc : List Nat) :
    (resolve_relocations base labels [r] mc).1 = stepMC base labels mc r := by
  rfl

/-- Claim C8: resolving one relocation entry whose label is defined and whose
word index is in range preserves the buffer length, leaves every other word
unchanged, and changes only the bits of that kind's immediate field in the
patched word — all bits selected by `keepMask` (bits 26..31 for `b`/`bl`,
bits 0..4 and 24..31 for `bcond`/`cb*`, bits 0..4 and 19..31 for `tb*`,
bits 0..4, 24..28 and 31 for `adr`/`adrp`) are preserved. -/
theorem c8_resolver_frame (base : Nat) (labels : List (String × Nat)) (mc : List Nat)
    (off : Nat) (lbl k : String) (target : Nat)
    (hl : dictLookup labels lbl = some target)
    (hidx : (off - base) / 4 < mc.length) :
    (resolve_relocations base labels [(off, lbl, k)] mc).1.length = mc.length ∧
    (∀ j d, j ≠ (off - base) / 4 →
      (resolve_relocations base labels [(off, lbl, k)] mc).1.getD j d = mc.getD j d) ∧
    (resolve_relocations base labels [(off, lbl, k)] mc).1.getD ((off - base) / 4) 0 &&&
        keepMask k =
      mc.getD ((off - base) / 4) 0 &&& keepMask k := by
  rw [resolve_singleton]
  refine ⟨stepMC_length base labels mc _, fun j d hj => stepMC_getD_ne base labels mc _ j d hj, ?_⟩
  simp only [stepMC, hl, if_pos hidx]
  rw [getD_set_self mc _ _ 0 hidx]
  exact patch_keeps_mask k target off _

/-- Witness for claim C8 on a two-word buffer. -/
theorem c8_witness :
    dictLookup [("x", 8)] "x" = some 8 ∧ (4 - 0) / 4 < ([5, 7] : List Nat).length ∧
    ((resolve_relocations 0 [("x", 8)] [(4, "x", "b")] [5, 7]).1.length = 2 ∧
      (∀ j d, j ≠ (4 - 0) / 4 →
        (resolve_relocations 0 [("x", 8)] [(4, "x", "b")] [5, 7]).1.getD j d =
          ([5, 7] : List Nat).getD j d) ∧
      (resolve_relocations 0 [("x", 8)] [(4, "x", "b")] [5, 7]).1.getD ((4 - 0) / 4) 0 &&&
          keepMask "b" =
        ([5, 7] : List Nat).getD ((4 - 0) / 4) 0 &&& keepMask "b") :=
  ⟨rfl, by decide, c8_resolver_frame 0 [("x", 8)] [5, 7] 4 "x" "b" 8 rfl (by decide)⟩

/-- Claim C9: over a relocation list whose entries patch pairwise distinct
word indices (as the pipeline produces), relocation resolution is idempotent
and its resulting machine-code buffer is invariant under permuting the
relocation list. -/
theorem c9_resolver_idem_perm (base : Nat) (labels : List (String × Nat))
    (relocs : List Reloc) (mc : List Nat)
    (h : relocs.Pairwise (fun r1 r2 => relocIdx base r1 ≠ relocIdx base r2)) :
    (resolve_relocations base labels relocs
        (resolve_relocations base labels relocs mc).1).1 =
      (resolve_relocations base labels relocs mc).1 ∧
    (∀ relocs', relocs.Perm relocs' →
      (resolve_relocations base labels relocs' mc).1 =
        (resolve_relocations base labels relocs mc).1) := by
  constructor
  · rw [resolve_relocations, resolve_relocations, resolve_fst_eq_foldl,
      resolve_fst_eq_foldl]
    exact foldl_stepMC_idem base labels relocs mc h
  · intro relocs' hp
    rw [resolve_relocations, resolve_relocations, resolve_fst_eq_foldl,
      resolve_fst_eq_foldl]
    exact (foldl_stepMC_perm base labels relocs relocs' mc hp h).symm

/-- Witness for claim C9 on a two-entry relocation list. -/
theorem c9_witness :
    ([(0, "a", "b"), (4, "a", "bcond")] : List Reloc).Pairwise
      (fun r1 r2 => relocIdx 0 r1 ≠ relocIdx 0 r2) ∧
    (resolve_relocations 0 [("a", 8)] [(0, "a", "b"), (4, "a", "bcond")]
        (resolve_relocations 0 [("a", 8)] [(0, "a", "b"), (4, "a", "bcond")] [0, 0, 0]).1).1 =
      (resolve_relocations 0 [("a", 8)] [(0, "a", "b"), (4, "a", "bcond")] [0, 0, 0]).1 ∧
    (resolve_relocations 0 [("a", 8)] [(4, "a", "bcond"), (0, "a", "b")] [0, 0, 0]).1 =
      (resolve_relocations 0 [("a", 8)] [(0, "a", "b"), (4, "a", "bcond")] [0, 0, 0]).1 := by
  have hpw : ([(0, "a", "b"), (4, "a", "bcond")] : List Reloc).Pairwise
      (fun r1 r2 => relocIdx 0 r1 ≠ relocIdx 0 r2) := by
    simp [List.pairwise_cons, relocIdx]
  have hperm : ([(0, "a", "b"), (4, "a", "bcond")] : List Reloc).Perm
      [(4, "a", "bcond"), (0, "a", "b")] := List.Perm.swap _ _ _
  exact ⟨hpw,
    (c9_resolver_idem_perm 0 [("a", 8)] [(0, "a", "b"), (4, "a", "bcond")] [0, 0, 0] hpw).1,
    (c9_resolver_idem_perm 0 [("a", 8)] [(0, "a", "b"), (4, "a", "bcond")] [0, 0, 0] hpw).2
      [(4, "a", "bcond"), (0, "a", "b")] hperm⟩

/-- Claim C5: when a relocation's target label is never defined, the resolver
does not raise — it emits the warning on the diagnostic stream and leaves the
buffer untouched; the `b missing_label` scenario completes with the branch
word's 26-bit offset field still at its zero placeholder, and the executable
is still emitted. -/
theorem c5_undefined_label_soft :
    (∀ (base : Nat) (labels : List (String × Nat)) (off : Nat) (lbl k : String)
      (mc : List Nat), dictLookup labels lbl = none →
      resolve_relocations base labels [(off, lbl, k)] mc =
        (mc, ["Warning: Undefined label \x27" ++ lbl ++ "\x27"])) ∧
    assemble "_start: b missing_label" 0x100000000 =
      .ok ⟨[("_start", 0x100000000)], [(0x100000000, "missing_label", "b")], [0x14000000],
        ["Warning: Undefined label \x27missing_label\x27"]⟩ ∧
    (0x14000000 : Nat) &&& 0x3FFFFFF = 0 ∧
    generate_macho [("_start", 0x100000000)] "_start" [0x14000000] =
      .ok (machoBytes 0x100000000 [0x14000000]) := by
  refine ⟨?_, rfl, by decide, rfl⟩
  intro base labels off lbl k mc h
  simp [resolve_relocations, resolveStep, stepMC, dictContains, h]

/-- Witness for claim C5's universally quantified resolver clause. -/
theorem c5_witness :
    dictLookup [] "zz" = none ∧
    resolve_relocations 0 [] [(0, "zz", "b")] [] =
      ([], ["Warning: Undefined label \x27zz\x27"]) :=
  ⟨rfl, c5_undefined_label_soft.1 0 [] 0 "zz" "b" [] rfl⟩

/-- Claim C6: when the requested entry label is absent from the label table,
`generate_macho` raises its fatal error before the output file is opened, so
no bytes of the executable are produced. -/
theorem c6_missing_entry_fatal (labels : List (String × Nat)) (entry : String)
    (mc : List Nat) (h : dictLookup labels entry = none) :
    generate_macho labels entry mc =
      .error ("Entry point \x27" ++ entry ++ "\x27 not found") := by
  unfold generate_macho
  rw [h]

/-- Witness for claim C6 at entry point `nope`. -/
theorem c6_witness :
    dictLookup [("_start", 0x100000000)] "nope" = none ∧
    generate_macho [("_start", 0x100000000)] "nope" [0xD503201F] =
      .error ("Entry point \x27nope\x27 not found") :=
  ⟨rfl, c6_missing_entry_fatal [("_start", 0x100000000)] "nope" [0xD503201F] rfl⟩

/-- Claim C10: defining the same label twice raises no error and produces no
warning — the table entry is silently overwritten, the final table maps the
label to the address of its last definition, and executable generation with
that label as entry point uses the last definition's address. -/
theorem c10_duplicate_label_overwrite :
    assemble "foo: nop\nfoo: nop" 0x100000000 =
      .ok ⟨[("foo", 0x100000004)], [], [0xD503201F, 0xD503201F], []⟩ ∧
    dictLookup [("foo", 0x100000004)] "foo" = some 0x100000004 ∧
    generate_macho [("foo", 0x100000004)] "foo" [0xD503201F, 0xD503201F] =
      .ok (machoBytes 0x100000004 [0xD503201F, 0xD503201F]) :=
  ⟨rfl, rfl, rfl⟩

/-- Claim C1 (code bug): the spec scenario `_start: / mov x0, #42 / mov x16, #1 /
svc #0x80` does not assemble to 3 words — the comment-stripping loop treats the
`#` of the immediate as a comment marker (the `[` guard does not apply), so the
MOV encoder is called with a single operand and the run aborts with the
propagated `IndexError`. -/
theorem c1_scenario_crashes :
    assemble "_start:\n    mov x0, #42\n    mov x16, #1\n    svc #0x80" 0x100000000 =
      .error "list index out of range" := rfl

/-- Claim C2 counterexample: for `foo: nop` followed by `b foo`, pass 2 finds
`foo` already in the label table and resolves the branch inline — the final
relocation list is empty (the claim says an entry is always appended) and the
26-bit offset field of the emitted word `0x17FFFFFF` is `0x3FFFFFF`, not the
claimed zero placeholder. -/
theorem c2_counterexample :
    assemble "foo: nop\nb foo" 0x100000000 =
      .ok ⟨[("foo", 0x100000000)], [], [0xD503201F, 0x17FFFFFF], []⟩ ∧
    (0x17FFFFFF : Nat) &&& 0x3FFFFFF = 0x3FFFFFF :=
  ⟨rfl, by decide⟩

/-- Claim C3 counterexample: a line consisting solely of a `#` comment advances
the pass-1 running address by 4 (pass 1 strips no `#` comments), and in
`b foo / # c / foo: nop` the branch is eagerly resolved against `foo`'s stale
pass-1 address `base+8` (word `0x14000002`, offset 2) although only one
instruction word precedes `foo`, whose final recorded address is `base+4`. -/
theorem c3_counterexample :
    (pass1 ["# only a comment"] 0x100000000).2 = 0x100000004 ∧
    assemble "b foo\n# c\nfoo: nop" 0x100000000 =
      .ok ⟨[("foo", 0x100000004)], [], [0x14000002, 0xD503201F], []⟩ :=
  ⟨rfl, rfl⟩

/-- The stripped form of a line beginning with `#` is non-empty and does not
begin with `;`, `//` or `.`. -/
theorem hash_line_facts (cs : List Char) :
    (String.mk ('#' :: cs)).isEmpty = false ∧
    pyStartsWith (String.mk ('#' :: cs)) ";" = false ∧
    pyStartsWith (String.mk ('#' :: cs)) "//" = false ∧
    pyStartsWith (String.mk ('#' :: cs)) "." = false := by
  refine ⟨?_, rfl, rfl, rfl⟩
  rw [Bool.eq_false_iff]
  intro h
  have h2 := congrArg String.data ((String.isEmpty_iff _).mp h)
  simp at h2

/-- Claim C3 amended: pass 1 strips no comments; a line whose stripped form
starts with `;` or `//` is skipped without advancing the running address or
touching the label table, while a line consisting solely of a `#` comment
(stripped form starting with `#`, containing no `:`) advances the pass-1
running address by 4 and leaves the label table unchanged. -/
theorem c3_amended :
    (∀ (st : List (String × Nat) × Nat) (line : String),
      (pyStartsWith (pyTrim line) ";" = true ∨ pyStartsWith (pyTrim line) "//" = true) →
      pass1Step st line = st) ∧
    (∀ (labels : List (String × Nat)) (address : Nat) (line : String),
      pyStartsWith (pyTrim line) "#" = true →
      pyHasChar (pyTrim line) ':' = false →
      pass1Step (labels, address) line = (labels, address + 4)) := by
  constructor
  · intro st line h
    unfold pass1Step
    rcases h with h | h <;> simp [h]
  · intro labels address line h1 h2
    cases hd : pyStripWsList line.data with
    | nil =>
      rw [pyStartsWith, pyTrim, hd] at h1
      simp [List.isPrefixOf] at h1
    | cons c cs =>
      have hc : c = '#' := by
        rw [pyStartsWith, pyTrim, hd] at h1
        simp [List.isPrefixOf] at h1
        exact h1.symm
      subst hc
      have htr : pyTrim line = String.mk ('#' :: cs) := by
        rw [pyTrim, hd]
      rw [htr] at h2
      obtain ⟨he, hs, hsl, hdot⟩ := hash_line_facts cs
      unfold pass1Step
      rw [htr]
      simp [he, hs, hsl, hdot, h2]

/-- Witness for the amended claim C3 on a `;` comment line and a `#` comment
line. -/
theorem c3_amended_witness :
    (pyStartsWith (pyTrim "  ; note") ";" = true ∨
      pyStartsWith (pyTrim "  ; note") "//" = true) ∧
    pass1Step ([("a", 12)], 0x100000000) "  ; note" = ([("a", 12)], 0x100000000) ∧
    pyStartsWith (pyTrim " # just a comment") "#" = true ∧
    pyHasChar (pyTrim " # just a comment") ':' = false ∧
    pass1Step ([("a", 12)], 0x100000000) " # just a comment" = ([("a", 12)], 0x100000004) :=
  ⟨Or.inl rfl, c3_amended.1 ([("a", 12)], 0x100000000) "  ; note" (Or.inl rfl), rfl, rfl,
    c3_amended.2 [("a", 12)] 0x100000000 " # just a comment" rfl rfl⟩

/-- Claim C4 counterexample: the logical-immediate encoder masks the immediate
to 6 bits, so `and x0, x1, #64` encodes (without raising) to the same word as
`and x0, x1, #0`; and BRK has no range check, so `brk #0x10000` encodes
(without raising) to the same word as `brk #0`. -/
theorem c4_counterexample :
    encode_logical_imm "and" ["x0", "x1", "#64"] = .ok 0x92400020 ∧
    encode_logical_imm "and" ["x0", "x1", "#0"] = .ok 0x92400020 ∧
    encode_brk "brk" ["#0x10000"] = .ok 0xD4200000 ∧
    encode_brk "brk" ["#0"] = .ok 0xD4200000 :=
  ⟨rfl, rfl, rfl, rfl⟩

/-- Witness for the amended claim C2: each of the five encoder families, at a
defined and at an undefined label. -/
theorem c2_amended_witness :
    dictLookup [("foo", 8)] (pyTrim "foo") = some 8 ∧
    dictLookup [] (pyTrim "bar") = none ∧
    pyHasChar "b.ne" '.' = true ∧
    parse_register "x1" = .ok (1, true) ∧
    parse_register "w3" = .ok (3, false) ∧
    parse_register "x2" = .ok (2, true) ∧
    parse_imm "#5" = .ok 5 ∧
    encode_b_bl "b" ["foo"] [("foo", 8)] [] 0 = .ok (0x14000002, []) ∧
    encode_b_bl "b" ["bar"] [] [] 0 = .ok (0x14000000, [(0, "bar", "b")]) ∧
    encode_b_cond "b.ne" ["foo"] [("foo", 8)] [] 0 = .ok (0x54000041, []) ∧
    encode_b_cond "b.ne" ["bar"] [] [] 0 = .ok (0x54000001, [(0, "bar", "bcond")]) ∧
    encode_cbz_cbnz "cbz" ["x1", "foo"] [("foo", 8)] [] 0 = .ok (0xB4000041, []) ∧
    encode_cbz_cbnz "cbz" ["x1", "bar"] [] [] 0 = .ok (0xB4000001, [(0, "bar", "cb")]) ∧
    encode_tbz_tbnz "tbnz" ["w3", "#5", "foo"] [("foo", 8)] [] 0 = .ok (0x37280043, []) ∧
    encode_tbz_tbnz "tbnz" ["w3", "#5", "bar"] [] [] 0 = .ok (0x37280003, [(0, "bar", "tb")]) ∧
    encode_adr_adrp "adr" ["x2", "foo"] [("foo", 8)] [] 0 = .ok (0x10000042, []) ∧
    encode_adr_adrp "adr" ["x2", "bar"] [] [] 0 = .ok (0x10000002, [(0, "bar", "adr")]) ∧
    encode_adr_adrp "adrp" ["x2", "foo"] [("foo", 8)] [] 0 = .ok (0x90000002, []) ∧
    encode_adr_adrp "adrp" ["x2", "bar"] [] [] 0 = .ok (0x90000002, [(0, "bar", "adrp")]) := by
  refine ⟨rfl, rfl, rfl, rfl, rfl, rfl, rfl, ?_, ?_, ?_, ?_, ?_, ?_, ?_, ?_, ?_, ?_, ?_, ?_⟩
  · exact (c2_amended "b" "foo" "x1" "#5" [("foo", 8)] [] 0 8 1 true 5).1 rfl
  · exact (c2_amended "b" "bar" "x1" "#5" [] [] 0 8 1 true 5).2.1 rfl
  · exact (c2_amended "b.ne" "foo" "x1" "#5" [("foo", 8)] [] 0 8 1 true 5).2.2.1 rfl rfl
  · exact (c2_amended "b.ne" "bar" "x1" "#5" [] [] 0 8 1 true 5).2.2.2.1 rfl rfl
  · exact (c2_amended "cbz" "foo" "x1" "#5" [("foo", 8)] [] 0 8 1 true 5).2.2.2.2.1 rfl rfl
  · exact (c2_amended "cbz" "bar" "x1" "#5" [] [] 0 8 1 true 5).2.2.2.2.2.1 rfl rfl
  · exact (c2_amended "tbnz" "foo" "w3" "#5" [("foo", 8)] [] 0 8 3 false 5).2.2.2.2.2.2.1
      rfl rfl rfl
  · exact (c2_amended "tbnz" "bar" "w3" "#5" [] [] 0 8 3 false 5).2.2.2.2.2.2.2.1
      rfl rfl rfl
  · exact (c2_amended "adr" "foo" "x2" "#5" [("foo", 8)] [] 0 8 2 true 5).2.2.2.2.2.2.2.2.1
      rfl rfl
  · exact (c2_amended "adr" "bar" "x2" "#5" [] [] 0 8 2 true 5).2.2.2.2.2.2.2.2.2.1 rfl rfl
  · exact (c2_amended "adrp" "foo" "x2" "#5" [("foo", 8)] [] 0 8 2 true
      5).2.2.2.2.2.2.2.2.2.2.1 rfl rfl
  · exact (c2_amended "adrp" "bar" "x2" "#5" [] [] 0 8 2 true
      5).2.2.2.2.2.2.2.2.2.2.2 rfl rfl

/-- Witness for the amended claim C4 at `add x0, x1, #5000` and
`movz x0, #70000`. -/
theorem c4_amended_witness :
    parse_register "x0" = .ok (0, true) ∧
    parse_register "x1" = .ok (1, true) ∧
    parse_imm "#5000" = .ok 5000 ∧
    ((5000 : Int) < 0 ∨ 4096 ≤ (5000 : Int)) ∧
    encode_add_sub_imm "add" ["x0", "x1", "#5000"] =
      .error "Immediate out of range: 5000" ∧
    encode_movz_movn_movk "movz" ["x0", "#70000"] =
      .error "Immediate out of range: 70000" :=
  ⟨rfl, rfl, rfl, Or.inr (by decide),
    (c4_amended "add" "x0" "x1" "#5000" 0 1 true true 5000).1 rfl rfl rfl
      (Or.inr (by decide)),
    (c4_amended "movz" "x0" "x1" "#70000" 0 1 true true 70000).2 (Or.inl rfl) rfl rfl
      (Or.inr (by decide))⟩

/-- Claim C7: for every run with a non-empty machine-code buffer and a defined
entry label, the emitted container starts with the little-endian magic
`CF FA ED FE`, every byte between the end of the load commands (offset 280)
and the page-aligned code offset `0x4000` is zero, the code stream begins
exactly at `0x4000`, and the LC_MAIN entry-offset field (bytes 264..271)
holds `entry address - 0x100000000` (the code segment's base virtual
address). -/
theorem c7_macho_layout (labels : List (String × Nat)) (entry : String)
    (mc : List Nat) (addr : Nat)
    (h1 : dictLookup labels entry = some addr) (_h2 : mc ≠ [])
    (_h3 : 0x100000000 ≤ addr) :
    ∃ bytes, generate_macho labels entry mc = .ok bytes ∧
      bytes.take 4 = [0xCF, 0xFA, 0xED, 0xFE] ∧
      bytes.length = 0x4000 + 4 * mc.length ∧
      (∀ i, 280 ≤ i → i < 0x4000 → bytes.getD i 1 = 0) ∧
      bytes.drop 0x4000 = mc.flatMap u32le ∧
      (bytes.drop 264).take 8 = u64le (addr - 0x100000000) := by
  refine ⟨machoBytes addr mc, ?_, machoBytes_take4 addr mc, machoBytes_length addr mc,
    fun i hi1 hi2 => machoBytes_padding addr mc i hi1 hi2, machoBytes_code addr mc,
    machoBytes_entryoff addr mc⟩
  unfold generate_macho
  rw [h1]

/-- Witness for claim C7 on a one-instruction buffer with entry `_start`. -/
theorem c7_witness :
    dictLookup [("_start", 0x100000000)] "_start" = some 0x100000000 ∧
    ([0xD503201F] : List Nat) ≠ [] ∧ (0x100000000 : Nat) ≤ 0x100000000 ∧
    (∃ bytes, generate_macho [("_start", 0x100000000)] "_start" [0xD503201F] = .ok bytes ∧
      bytes.take 4 = [0xCF, 0xFA, 0xED, 0xFE] ∧
      bytes.length = 0x4000 + 4 * ([0xD503201F] : List Nat).length ∧
      (∀ i, 280 ≤ i → i < 0x4000 → bytes.getD i 1 = 0) ∧
      bytes.drop 0x4000 = ([0xD503201F] : List Nat).flatMap u32le ∧
      (bytes.drop 264).take 8 = u64le (0x100000000 - 0x100000000)) :=
  ⟨rfl, by simp, by decide,
    c7_macho_layout [("_start", 0x100000000)] "_start" [0xD503201F] 0x100000000
      rfl (by simp) (by decide)⟩
